import Mathlib

/-!
Shallow embedding of the two programs of this repository:

* `src/exp4.2.js` — an in-memory playing-cards store behind an HTTP API.
  The mutable module state (`deck`, `discardPile`) becomes an explicit
  `CardState` record; each route handler becomes a pure function from the
  request data and the pre-state to the post-state plus an `Except` result
  (HTTP error status and message, or the JSON payload).  JS truthiness on
  request-body string fields (`undefined` and `""` are falsy) is modelled by
  `strTruthy` on `Option String`.  `Math.random` in the Fisher-Yates shuffle
  is modelled by an arbitrary choice function `f : Nat → Nat` supplying the
  index `j` chosen at loop counter `i`.

* `src/unnamed/part_000` — the interactive book-list CLI.  The module state
  (`books`, `nextId`) becomes a `BookState` record; each command handler
  becomes a pure function from the answers the user types at its prompts and
  the pre-state to the post-state.  `Number()` on the integer-literal strings
  the CLI reads is modelled by `jsNum` (`none` standing for `NaN`).
-/

namespace CardStore

structure Card where
  id : String
  rank : String
  suit : String
deriving Repr, DecidableEq

instance : Inhabited Card := ⟨⟨"", "", ""⟩⟩

/-- The two sequences held in module state: `deck` (the active cards) and
`discardPile` (line 29-30 of `exp4.2.js`). -/
structure CardState where
  deck : List Card
  discard : List Card
deriving Repr, DecidableEq

/-- An HTTP error response: status code and `error` message body. -/
structure ApiError where
  status : Nat
  msg : String
deriving Repr, DecidableEq

def SUITS : List String := ["Clubs", "Diamonds", "Hearts", "Spades"]

def RANKS : List String := ["A", "2", "3", "4", "5", "6", "7", "8", "9", "10", "J", "Q", "K"]

/-- `makeDeck` (lines 18-26): the nested `for suit / for rank` loops pushing
`{ id: rank-suit, rank, suit }` in order. -/
def makeDeck : List Card :=
  SUITS.flatMap fun suit => RANKS.map fun rank => ⟨rank ++ "-" ++ suit, rank, suit⟩

/-- JS truthiness of an optional string body field: `undefined` (absent) and
`""` are falsy, every other string is truthy. -/
def strTruthy : Option String → Bool
  | none => false
  | some s => s ≠ ""

/-- `arr.some(c => c.id === cardId)` on a card array. -/
def hasId (cs : List Card) (i : String) : Bool :=
  cs.any fun c => c.id == i

/-- `findCardIndexById` (lines 33-35): `deck.findIndex(c => c.id === id)`,
with `none` for `-1`. -/
def findCardIndexById (i : String) : List Card → Option Nat
  | [] => none
  | c :: cs => if c.id == i then some 0 else (findCardIndexById i cs).map (· + 1)

/-- Body of `POST /cards`. -/
structure AddBody where
  rank : Option String
  suit : Option String
  id : Option String

/-- Line 74 of the `POST /cards` handler: `const cardId = id || rank-suit`
(under the guard of line 73 the body rank and suit are the truthy strings
`b.rank.getD ""` and `b.suit.getD ""`). -/
def defaultedId (b : AddBody) : String :=
  if strTruthy b.id then b.id.getD "" else b.rank.getD "" ++ "-" ++ b.suit.getD ""

/-- `POST /cards` handler (lines 71-82). Returns the post-state and either the
created card (201) or the error response. -/
def addCard (b : AddBody) (s : CardState) : CardState × Except ApiError Card :=
  if !strTruthy b.rank || !strTruthy b.suit then
    (s, .error ⟨400, "rank and suit are required"⟩)
  else if hasId s.deck (defaultedId b) || hasId s.discard (defaultedId b) then
    (s, .error ⟨409, "A card with that id already exists"⟩)
  else
    ({ deck := s.deck ++ [⟨defaultedId b, b.rank.getD "", b.suit.getD ""⟩],
       discard := s.discard },
     .ok ⟨defaultedId b, b.rank.getD "", b.suit.getD ""⟩)

/-- Body of `PUT /cards/:id`. -/
structure UpdateBody where
  rank : Option String
  suit : Option String
  newId : Option String

/-- Lines 91-92 of the `PUT /cards/:id` handler: `if (rank) card.rank = rank;
if (suit) card.suit = suit;` — overwrite exactly the provided fields. -/
def applyRankSuit (b : UpdateBody) (c : Card) : Card :=
  let c1 := if strTruthy b.rank then { c with rank := b.rank.getD "" } else c
  if strTruthy b.suit then { c1 with suit := b.suit.getD "" } else c1

/-- `PUT /cards/:id` handler (lines 85-102).  The JS mutates the card object
held inside `deck` in place, so the rank/suit writes are visible in the deck
even when the handler then returns the 409 `newId` conflict: the conflict
branch below therefore returns the state with `deck.set idx` already
applied. -/
def updateCard (i : String) (b : UpdateBody) (s : CardState) :
    CardState × Except ApiError Card :=
  match findCardIndexById i s.deck with
  | none => (s, .error ⟨404, "Card not in deck"⟩)
  | some idx =>
    let card := applyRankSuit b (s.deck.getD idx default)
    let deck1 := s.deck.set idx card
    if strTruthy b.newId then
      let nid := b.newId.getD ""
      if hasId deck1 nid || hasId s.discard nid then
        ({ deck := deck1, discard := s.discard }, .error ⟨409, "newId already exists"⟩)
      else
        let card2 := { card with id := nid }
        ({ deck := deck1.set idx card2, discard := s.discard }, .ok card2)
    else
      ({ deck := deck1, discard := s.discard }, .ok card)

/-- `DELETE /cards/:id` handler (lines 105-112): splice the card out of the
deck and push it onto the discard pile. -/
def removeCard (i : String) (s : CardState) : CardState × Except ApiError Card :=
  match findCardIndexById i s.deck with
  | none => (s, .error ⟨404, "Card not found in deck"⟩)
  | some idx =>
    let removed := s.deck.getD idx default
    ({ deck := s.deck.eraseIdx idx, discard := s.discard ++ [removed] }, .ok removed)

/-- One step of the Fisher-Yates body (line 41): `[arr[i], arr[j]] =
[arr[j], arr[i]]`, a no-op when an index is out of range (in the source both
always are in range). -/
def listSwap (l : List Card) (i j : Nat) : List Card :=
  match l.get? i, l.get? j with
  | some a, some b => (l.set i b).set j a
  | _, _ => l

/-- The `for (let i = arr.length - 1; i > 0; i--)` loop of `shuffleArray`
(lines 37-43), with `f i` the index `j = Math.floor(Math.random() * (i + 1))`
drawn at counter value `i`. -/
def fyLoop (f : Nat → Nat) : Nat → List Card → List Card
  | 0, arr => arr
  | i + 1, arr => fyLoop f i (listSwap arr (i + 1) (f (i + 1)))

/-- `shuffleArray` (lines 37-43) applied to a list, given the random draws. -/
def shuffleArray (f : Nat → Nat) (arr : List Card) : List Card :=
  fyLoop f (arr.length - 1) arr

/-- `POST /shuffle` handler (lines 115-118): shuffles the deck, leaves the
discard pile alone, reports the remaining count. -/
def shuffle (f : Nat → Nat) (s : CardState) : CardState × Nat :=
  let deck1 := shuffleArray f s.deck
  (⟨deck1, s.discard⟩, deck1.length)

/-- The `for (i = 0; i < n && deck.length > 0; i++) { deck.shift() ... }` loop
of the `POST /draw` handler: first component the drawn cards in draw order,
second the remaining deck. -/
def drawLoop : Nat → List Card → List Card × List Card
  | 0, arr => ([], arr)
  | _ + 1, [] => ([], [])
  | n + 1, c :: rest =>
    let p := drawLoop n rest
    (c :: p.1, p.2)

/-- Successful `POST /draw` payload: `{ drawn, remaining }`. -/
structure DrawResult where
  drawn : List Card
  remaining : Nat
deriving Repr, DecidableEq

/-- `POST /draw` handler (lines 121-131) at an already-clamped count `n`
(the source computes `n = Math.max(1, Number(...))`, so `n ≥ 1`). -/
def draw (n : Nat) (s : CardState) : CardState × Except ApiError DrawResult :=
  if s.deck.length = 0 then
    (s, .error ⟨400, "Deck is empty"⟩)
  else
    let p := drawLoop n s.deck
    ({ deck := p.2, discard := s.discard ++ p.1 }, .ok ⟨p.1, p.2.length⟩)

/-- `GET /peek` handler (lines 134-137): `deck.slice(0, n)`, no mutation; the
state component records that the handler leaves the store untouched. -/
def peek (n : Nat) (s : CardState) : CardState × List Card :=
  (s, s.deck.take n)

/-- `POST /reset` handler (lines 140-144). -/
def reset (_ : CardState) : CardState :=
  { deck := makeDeck, discard := [] }

/-- `GET /stats` handler (lines 147-149). -/
def stats (s : CardState) : Nat × Nat :=
  (s.deck.length, s.discard.length)

/-- The id-uniqueness invariant: all ids across the active and discarded
sequences are pairwise distinct. -/
def uniqueIds (s : CardState) : Prop :=
  ((s.deck ++ s.discard).map Card.id).Nodup

instance (s : CardState) : Decidable (uniqueIds s) := by
  unfold uniqueIds; infer_instance

end CardStore

namespace BookStore

/-- A book record.  `year` and `isbn` are the optional fields; a `NaN` year
(which exists transiently in the JS after `update` with a non-numeric input,
is falsy, and is never produced by `add`) is modelled as absence. -/
structure Book where
  id : Nat
  title : String
  author : String
  year : Option Int
  isbn : Option String
deriving Repr, DecidableEq

instance : Inhabited Book := ⟨⟨0, "", "", none, none⟩⟩

/-- The module state of the CLI: the `books` array and the `nextId` counter
(lines 11-15 of the book CLI source). -/
structure BookState where
  books : List Book
  nextId : Nat
deriving Repr, DecidableEq

/-- Models JS `String.prototype.trim`: strip leading and trailing
whitespace. -/
def jsTrim (s : String) : String :=
  ⟨(((s.data.dropWhile Char.isWhitespace).reverse.dropWhile Char.isWhitespace).reverse)⟩

/-- Models JS `String.prototype.toLowerCase` on the ASCII answers the CLI
compares. -/
def jsToLower (s : String) : String :=
  ⟨s.data.map Char.toLower⟩

/-- Decimal digit run, or `none` if any character is not a digit. -/
def parseNatDigits (cs : List Char) : Option Nat :=
  if cs ≠ [] ∧ cs.all Char.isDigit then
    some (cs.foldl (fun n c => n * 10 + (c.toNat - 48)) 0)
  else none

/-- Models the JS `Number()` conversion on the optionally-signed decimal
integer-literal strings this CLI reads; `none` stands for `NaN` (non-numeric
input). -/
def jsNum (s : String) : Option Int :=
  match s.data with
  | '-' :: cs => (parseNatDigits cs).map fun n => -(n : Int)
  | cs => (parseNatDigits cs).map fun n => (n : Int)

/-- JS truthiness of an optional number: `undefined`, `NaN` and `0` are
falsy. -/
def numTruthy : Option Int → Bool
  | none => false
  | some n => n ≠ 0

/-- The `nextId` seed (line 15): `books.length ? Math.max(...ids) + 1 : 1`.
For the `Nat` ids here, folding `max` from `0` computes `Math.max` of a
non-empty id list. -/
def seedNextId (bs : List Book) : Nat :=
  if bs.length ≠ 0 then (bs.map Book.id).foldr max 0 + 1 else 1

/-- The sample data the store starts with (lines 11-14). -/
def initBooks : List Book :=
  [⟨1, "The Pragmatic Programmer", "Andrew Hunt", some 1999, none⟩,
   ⟨2, "Clean Code", "Robert C. Martin", some 2008, none⟩]

def initState : BookState :=
  ⟨initBooks, seedNextId initBooks⟩

/-- The answers the user types at the four `add` prompts, in order. -/
structure AddInput where
  titleRaw : String
  authorRaw : String
  yearRaw : String
  isbnRaw : String
deriving Repr, DecidableEq

/-- `cmdAdd` (lines 48-61).  Returns the post-state and the created book, or
`none` when the empty title aborts the whole operation. -/
def cmdAdd (inp : AddInput) (s : BookState) : BookState × Option Book :=
  let title := (jsTrim inp.titleRaw)
  if title = "" then (s, none)
  else
    let author := if (jsTrim inp.authorRaw) = "" then "Unknown" else (jsTrim inp.authorRaw)
    let yearRaw := (jsTrim inp.yearRaw)
    let year : Option Int := if yearRaw = "" then none else jsNum yearRaw
    let isbn : Option String := if (jsTrim inp.isbnRaw) = "" then none else some (jsTrim inp.isbnRaw)
    let book : Book :=
      { id := s.nextId, title := title, author := author,
        year := if numTruthy year then year else none,
        isbn := isbn }
    ({ books := s.books ++ [book], nextId := s.nextId + 1 }, some book)

/-- `findIndex` / `find` over the books by numeric id (`b.id === id`). -/
def findBookIndexById (i : Int) : List Book → Option Nat
  | [] => none
  | b :: bs => if (b.id : Int) == i then some 0 else (findBookIndexById i bs).map (· + 1)

/-- The argument of `update <id>` plus the answers typed at its four
prompts. -/
structure UpdInput where
  argRaw : String
  titleRaw : String
  authorRaw : String
  yearRaw : String
  isbnRaw : String
deriving Repr, DecidableEq

/-- Lines 91-94 of `cmdUpdate`: each non-empty (after trim) answer overwrites
its field of the found book, in place. -/
def applyBookFields (inp : UpdInput) (b : Book) : Book :=
  let b1 := if (jsTrim inp.titleRaw) ≠ "" then { b with title := (jsTrim inp.titleRaw) } else b
  let b2 := if (jsTrim inp.authorRaw) ≠ "" then { b1 with author := (jsTrim inp.authorRaw) } else b1
  let b3 := if (jsTrim inp.yearRaw) ≠ "" then { b2 with year := jsNum (jsTrim inp.yearRaw) } else b2
  if (jsTrim inp.isbnRaw) ≠ "" then { b3 with isbn := some (jsTrim inp.isbnRaw) } else b3

/-- `cmdUpdate` (lines 80-96): `Number(arg)` must be truthy, the book must
exist; the prompt answers then overwrite the provided fields in place. -/
def cmdUpdate (inp : UpdInput) (s : BookState) : BookState :=
  match jsNum inp.argRaw with
  | none => s
  | some i =>
    if i = 0 then s
    else
      match findBookIndexById i s.books with
      | none => s
      | some idx =>
        { s with books := s.books.set idx (applyBookFields inp (s.books.getD idx default)) }

/-- `cmdRemove` (lines 98-105): `Number(arg)` must be truthy, the book must
exist; splices it out. -/
def cmdRemove (argRaw : String) (s : BookState) : BookState :=
  match jsNum argRaw with
  | none => s
  | some i =>
    if i = 0 then s
    else
      match findBookIndexById i s.books with
      | none => s
      | some idx => { s with books := s.books.eraseIdx idx }

/-- `cmdClear` (lines 107-111): empties `books` only when the confirmation
answer, trimmed and lower-cased, is the literal `yes`; `nextId` is never
reset. -/
def cmdClear (answerRaw : String) (s : BookState) : BookState :=
  if jsToLower (jsTrim answerRaw) = "yes" then { s with books := [] } else s

/-- The state-mutating commands of the dispatcher (lines 113-129); `list`,
`find` and `help` read the state only and are omitted from traces. -/
inductive Cmd where
  | add (inp : AddInput)
  | update (inp : UpdInput)
  | remove (argRaw : String)
  | clear (answerRaw : String)

/-- Run one command; the second component is the book it created, if any. -/
def applyCmd : Cmd → BookState → BookState × Option Book
  | .add inp, s => cmdAdd inp s
  | .update inp, s => (cmdUpdate inp s, none)
  | .remove a, s => (cmdRemove a s, none)
  | .clear a, s => (cmdClear a s, none)

/-- Run a list of commands in order. -/
def runTrace : List Cmd → BookState → BookState
  | [], s => s
  | c :: cs, s => runTrace cs (applyCmd c s).1

/-- The ids assigned by the `add` commands of a trace, in order. -/
def assignedIds : List Cmd → BookState → List Nat
  | [], _ => []
  | c :: cs, s =>
    (match (applyCmd c s).2 with | some b => [b.id] | none => []) ++
      assignedIds cs (applyCmd c s).1

/-- The id-counter invariant: every stored id is below `nextId`. -/
def booksInv (s : BookState) : Prop :=
  ∀ b ∈ s.books, b.id < s.nextId

instance (s : BookState) : Decidable (booksInv s) := by
  unfold booksInv; infer_instance

end BookStore

namespace CardStore

theorem hasId_iff (cs : List Card) (i : String) :
    hasId cs i = true ↔ i ∈ cs.map Card.id := by
  unfold hasId
  rw [List.any_eq_true]
  constructor
  · rintro ⟨c, hc, heq⟩
    exact List.mem_map.mpr ⟨c, hc, beq_iff_eq.mp heq⟩
  · intro h
    obtain ⟨c, hc, hid⟩ := List.mem_map.mp h
    exact ⟨c, hc, beq_iff_eq.mpr hid⟩

theorem hasId_false_iff (cs : List Card) (i : String) :
    hasId cs i = false ↔ i ∉ cs.map Card.id := by
  rw [← Bool.not_eq_true, not_iff_not]
  exact hasId_iff cs i

theorem findCardIndexById_eq_none (i : String) (l : List Card) :
    findCardIndexById i l = none ↔ ∀ c ∈ l, c.id ≠ i := by
  induction l with
  | nil => simp [findCardIndexById]
  | cons c cs ih =>
    by_cases h : c.id = i
    · simp [findCardIndexById, h]
    · simp [findCardIndexById, h, ih]

theorem findCardIndexById_eq_some (i : String) (l : List Card) (n : Nat)
    (h : findCardIndexById i l = some n) :
    n < l.length ∧ (l.getD n default).id = i := by
  induction l generalizing n with
  | nil => simp [findCardIndexById] at h
  | cons c cs ih =>
    by_cases hc : c.id = i
    · simp [findCardIndexById, hc] at h
      subst h
      simpa using hc
    · rw [findCardIndexById, if_neg (by simp [hc]), Option.map_eq_some'] at h
      obtain ⟨m, hm, hmn⟩ := h
      subst hmn
      obtain ⟨h1, h2⟩ := ih m hm
      constructor
      · simpa using Nat.succ_lt_succ h1
      · simpa using h2

theorem applyRankSuit_id (b : UpdateBody) (c : Card) :
    (applyRankSuit b c).id = c.id := by
  unfold applyRankSuit
  split <;> split <;> rfl

theorem getD_mem {l : List Card} {n : Nat} (h : n < l.length) :
    l.getD n default ∈ l := by
  induction l generalizing n with
  | nil => simp at h
  | cons c cs ih =>
    cases n with
    | zero => simp
    | succ m =>
      simp only [List.length_cons, Nat.succ_lt_succ_iff] at h
      exact List.mem_cons_of_mem _ (ih h)

theorem map_id_set_eq {l : List Card} {n : Nat} {c : Card}
    (h : n < l.length) (hid : c.id = (l.getD n default).id) :
    (l.set n c).map Card.id = l.map Card.id := by
  induction l generalizing n with
  | nil => simp at h
  | cons x xs ih =>
    cases n with
    | zero => simp_all
    | succ m =>
      simp only [List.length_cons, Nat.succ_lt_succ_iff] at h
      simp only [List.getD_cons_succ] at hid
      simp [ih h hid]

theorem nodup_append_set {l r : List String} {n : Nat} {a : String}
    (h : (l ++ r).Nodup) (hal : a ∉ l) (har : a ∉ r) :
    (l.set n a ++ r).Nodup := by
  induction l generalizing n with
  | nil => simpa using h
  | cons x xs ih =>
    rw [List.cons_append, List.nodup_cons] at h
    obtain ⟨hx, hrest⟩ := h
    rw [List.mem_cons, not_or] at hal
    cases n with
    | zero =>
      rw [List.set_cons_zero, List.cons_append, List.nodup_cons]
      refine ⟨?_, hrest⟩
      rw [List.mem_append, not_or]
      exact ⟨hal.2, har⟩
    | succ m =>
      have hx2 : x ∉ xs ∧ x ∉ r := by
        rw [List.mem_append, not_or] at hx
        exact hx
      rw [List.set_cons_succ, List.cons_append, List.nodup_cons]
      refine ⟨?_, ih hrest hal.2⟩
      rw [List.mem_append, not_or]
      constructor
      · intro hmem
        rcases List.mem_or_eq_of_mem_set hmem with h1 | h1
        · exact hx2.1 h1
        · exact hal.1 h1.symm
      · exact hx2.2

theorem drawLoop_eq (n : Nat) (l : List Card) :
    drawLoop n l = (l.take n, l.drop n) := by
  induction n generalizing l with
  | zero => simp [drawLoop]
  | succ m ih =>
    cases l with
    | nil => simp [drawLoop]
    | cons c cs => simp [drawLoop, ih]

theorem cons_getD_set_perm (l : List Card) (k : Nat) (x : Card) (hk : k < l.length) :
    List.Perm (l.getD k default :: l.set k x) (x :: l) := by
  induction l generalizing k with
  | nil => simp at hk
  | cons y ys ih =>
    cases k with
    | zero =>
      simpa using List.Perm.swap x y ys
    | succ m =>
      simp only [List.length_cons, Nat.succ_lt_succ_iff] at hk
      simp only [List.getD_cons_succ, List.set_cons_succ]
      have s1 : List.Perm (ys.getD m default :: y :: ys.set m x)
          (y :: ys.getD m default :: ys.set m x) := List.Perm.swap y _ _
      have s2 : List.Perm (y :: ys.getD m default :: ys.set m x) (y :: x :: ys) :=
        (ih m hk).cons y
      have s3 : List.Perm (y :: x :: ys) (x :: y :: ys) := List.Perm.swap x y ys
      exact s1.trans (s2.trans s3)

theorem set_getD_self (l : List Card) (n : Nat) :
    l.set n (l.getD n default) = l := by
  induction l generalizing n with
  | nil => rfl
  | cons x xs ih =>
    cases n with
    | zero => simp
    | succ m =>
      simp only [List.getD_cons_succ, List.set_cons_succ]
      rw [ih]

theorem set_set_swap_perm (l : List Card) (i j : Nat) (a b : Card)
    (hi : l.get? i = some a) (hj : l.get? j = some b) :
    List.Perm ((l.set i b).set j a) l := by
  rw [List.get?_eq_getElem?] at hi hj
  have hil : i < l.length := (List.getElem?_eq_some_iff.mp hi).1
  have hjl : j < l.length := (List.getElem?_eq_some_iff.mp hj).1
  have hdi : l.getD i default = a := by simp [List.getD_eq_getElem?_getD, hi]
  have hdj : l.getD j default = b := by simp [List.getD_eq_getElem?_getD, hj]
  by_cases hij : i = j
  · subst hij
    have hab : a = b := by rw [hi] at hj; exact Option.some.inj hj
    subst hab
    rw [List.set_set, ← hdi, set_getD_self]
  · have h1 : List.Perm (a :: l.set i b) (b :: l) := by
      have := cons_getD_set_perm l i b hil
      rwa [hdi] at this
    have hdj1 : (l.set i b).getD j default = b := by
      simp [List.getD_eq_getElem?_getD, List.getElem?_set_ne hij, hj]
    have h2 : List.Perm (b :: (l.set i b).set j a) (a :: l.set i b) := by
      have := cons_getD_set_perm (l.set i b) j a (by simpa using hjl)
      rwa [hdj1] at this
    exact (h2.trans h1).cons_inv

theorem listSwap_perm (l : List Card) (i j : Nat) :
    List.Perm (listSwap l i j) l := by
  unfold listSwap
  split
  · next a b hi hj => exact set_set_swap_perm l i j a b hi hj
  · exact List.Perm.refl l

theorem fyLoop_perm (f : Nat → Nat) (n : Nat) (l : List Card) :
    List.Perm (fyLoop f n l) l := by
  induction n generalizing l with
  | zero => exact List.Perm.refl l
  | succ m ih => exact (ih _).trans (listSwap_perm l (m + 1) (f (m + 1)))

theorem shuffleArray_perm (f : Nat → Nat) (l : List Card) :
    List.Perm (shuffleArray f l) l :=
  fyLoop_perm f (l.length - 1) l

theorem perm_getD_cons_eraseIdx (l : List Card) (n : Nat) (h : n < l.length) :
    List.Perm l (l.getD n default :: l.eraseIdx n) := by
  induction l generalizing n with
  | nil => simp at h
  | cons x xs ih =>
    cases n with
    | zero => simp
    | succ m =>
      simp only [List.length_cons, Nat.succ_lt_succ_iff] at h
      simp only [List.getD_cons_succ, List.eraseIdx_cons_succ]
      have s1 : List.Perm (x :: xs) (x :: xs.getD m default :: xs.eraseIdx m) :=
        (ih m h).cons x
      have s2 : List.Perm (x :: xs.getD m default :: xs.eraseIdx m)
          (xs.getD m default :: x :: xs.eraseIdx m) := List.Perm.swap _ x _
      exact s1.trans s2

theorem addCard_cases (b : AddBody) (s : CardState) :
    addCard b s = (s, .error ⟨400, "rank and suit are required"⟩) ∨
    addCard b s = (s, .error ⟨409, "A card with that id already exists"⟩) ∨
    ∃ c : Card, addCard b s = ({ deck := s.deck ++ [c], discard := s.discard }, .ok c) ∧
      hasId s.deck c.id = false ∧ hasId s.discard c.id = false := by
  by_cases h1 : (!strTruthy b.rank || !strTruthy b.suit) = true
  · left
    unfold addCard
    rw [if_pos h1]
  · by_cases h2 : (hasId s.deck (defaultedId b) || hasId s.discard (defaultedId b)) = true
    · right; left
      unfold addCard
      rw [if_neg h1, if_pos h2]
    · right; right
      rw [Bool.not_eq_true] at h2
      refine ⟨⟨defaultedId b, b.rank.getD "", b.suit.getD ""⟩, ?_, ?_, ?_⟩
      · unfold addCard
        rw [if_neg h1, if_neg (by rw [h2]; simp)]
      · exact (Bool.or_eq_false_iff.mp h2).1
      · exact (Bool.or_eq_false_iff.mp h2).2

theorem updateCard_notfound (i : String) (b : UpdateBody) (s : CardState)
    (h : findCardIndexById i s.deck = none) :
    updateCard i b s = (s, .error ⟨404, "Card not in deck"⟩) := by
  unfold updateCard
  rw [h]

theorem updateCard_found (i : String) (b : UpdateBody) (s : CardState) (idx : Nat)
    (h : findCardIndexById i s.deck = some idx) :
    (strTruthy b.newId = true ∧
      (hasId (s.deck.set idx (applyRankSuit b (s.deck.getD idx default))) (b.newId.getD "") ||
        hasId s.discard (b.newId.getD "")) = true ∧
      updateCard i b s =
        ({ deck := s.deck.set idx (applyRankSuit b (s.deck.getD idx default)),
           discard := s.discard }, .error ⟨409, "newId already exists"⟩)) ∨
    (strTruthy b.newId = true ∧
      (hasId (s.deck.set idx (applyRankSuit b (s.deck.getD idx default))) (b.newId.getD "") ||
        hasId s.discard (b.newId.getD "")) = false ∧
      updateCard i b s =
        ({ deck := (s.deck.set idx (applyRankSuit b (s.deck.getD idx default))).set idx
             { applyRankSuit b (s.deck.getD idx default) with id := b.newId.getD "" },
           discard := s.discard },
         .ok { applyRankSuit b (s.deck.getD idx default) with id := b.newId.getD "" })) ∨
    (strTruthy b.newId = false ∧
      updateCard i b s =
        ({ deck := s.deck.set idx (applyRankSuit b (s.deck.getD idx default)),
           discard := s.discard }, .ok (applyRankSuit b (s.deck.getD idx default)))) := by
  by_cases hn : strTruthy b.newId = true
  · by_cases hc : (hasId (s.deck.set idx (applyRankSuit b (s.deck.getD idx default)))
        (b.newId.getD "") || hasId s.discard (b.newId.getD "")) = true
    · left
      refine ⟨hn, hc, ?_⟩
      unfold updateCard
      rw [h]
      simp only [hn, if_true]
      rw [if_pos hc]
    · right; left
      rw [Bool.not_eq_true] at hc
      refine ⟨hn, hc, ?_⟩
      unfold updateCard
      rw [h]
      simp only [hn, if_true]
      rw [if_neg (by rw [hc]; simp)]
  · right; right
    rw [Bool.not_eq_true] at hn
    refine ⟨hn, ?_⟩
    unfold updateCard
    rw [h]
    simp only [hn, Bool.false_eq_true, if_false]

theorem removeCard_notfound (i : String) (s : CardState)
    (h : findCardIndexById i s.deck = none) :
    removeCard i s = (s, .error ⟨404, "Card not found in deck"⟩) := by
  unfold removeCard
  rw [h]

theorem removeCard_found (i : String) (s : CardState) (idx : Nat)
    (h : findCardIndexById i s.deck = some idx) :
    removeCard i s =
      ({ deck := s.deck.eraseIdx idx,
         discard := s.discard ++ [s.deck.getD idx default] }, .ok (s.deck.getD idx default)) := by
  unfold removeCard
  rw [h]

theorem uniqueIds_of_perm {t s : CardState} (h : uniqueIds s)
    (hp : List.Perm (t.deck ++ t.discard) (s.deck ++ s.discard)) : uniqueIds t :=
  (List.Perm.nodup_iff (hp.map Card.id)).mpr h

theorem addCard_uniqueIds (b : AddBody) (s : CardState) (h : uniqueIds s) :
    uniqueIds (addCard b s).1 := by
  rcases addCard_cases b s with heq | heq | ⟨c, heq, h1, h2⟩
  · rw [heq]; exact h
  · rw [heq]; exact h
  · rw [heq]
    show (((s.deck ++ [c]) ++ s.discard).map Card.id).Nodup
    have hn1 : c.id ∉ s.deck.map Card.id := (hasId_false_iff _ _).mp h1
    have hn2 : c.id ∉ s.discard.map Card.id := (hasId_false_iff _ _).mp h2
    have hp : List.Perm ((s.deck ++ [c]) ++ s.discard) (c :: (s.deck ++ s.discard)) := by
      have e1 : List.Perm (s.deck ++ [c]) ([c] ++ s.deck) := List.perm_append_comm
      simp only [List.singleton_append, List.cons_append] at e1 ⊢
      exact e1.append_right s.discard
    refine (List.Perm.nodup_iff (hp.map Card.id)).mpr ?_
    rw [List.map_cons, List.nodup_cons]
    refine ⟨?_, h⟩
    rw [List.map_append, List.mem_append]
    rintro (hmem | hmem)
    · exact hn1 hmem
    · exact hn2 hmem

theorem updateCard_uniqueIds (i : String) (b : UpdateBody) (s : CardState) (h : uniqueIds s) :
    uniqueIds (updateCard i b s).1 := by
  cases hf : findCardIndexById i s.deck with
  | none => rw [updateCard_notfound i b s hf]; exact h
  | some idx =>
    obtain ⟨hlt, _⟩ := findCardIndexById_eq_some i s.deck idx hf
    have hids : (s.deck.set idx (applyRankSuit b (s.deck.getD idx default))).map Card.id
        = s.deck.map Card.id :=
      map_id_set_eq hlt (applyRankSuit_id b _)
    rcases updateCard_found i b s idx hf with ⟨_, _, heq⟩ | ⟨_, hc, heq⟩ | ⟨_, heq⟩
    · rw [heq]
      show ((s.deck.set idx (applyRankSuit b (s.deck.getD idx default)) ++
        s.discard).map Card.id).Nodup
      rw [List.map_append, hids, ← List.map_append]
      exact h
    · rw [heq]
      show (((s.deck.set idx (applyRankSuit b (s.deck.getD idx default))).set idx
        { applyRankSuit b (s.deck.getD idx default) with id := b.newId.getD "" } ++
        s.discard).map Card.id).Nodup
      rw [List.set_set, List.map_append, List.map_set]
      refine nodup_append_set ?_ ?_ ?_
      · rw [← List.map_append]
        exact h
      · have hd := (hasId_false_iff _ _).mp (Bool.or_eq_false_iff.mp hc).1
        rwa [hids] at hd
      · exact (hasId_false_iff _ _).mp (Bool.or_eq_false_iff.mp hc).2
    · rw [heq]
      show ((s.deck.set idx (applyRankSuit b (s.deck.getD idx default)) ++
        s.discard).map Card.id).Nodup
      rw [List.map_append, hids, ← List.map_append]
      exact h

theorem removeCard_uniqueIds (i : String) (s : CardState) (h : uniqueIds s) :
    uniqueIds (removeCard i s).1 := by
  cases hf : findCardIndexById i s.deck with
  | none => rw [removeCard_notfound i s hf]; exact h
  | some idx =>
    obtain ⟨hlt, _⟩ := findCardIndexById_eq_some i s.deck idx hf
    rw [removeCard_found i s idx hf]
    refine uniqueIds_of_perm h ?_
    show List.Perm (s.deck.eraseIdx idx ++ (s.discard ++ [s.deck.getD idx default]))
      (s.deck ++ s.discard)
    have h1 : List.Perm (s.discard ++ [s.deck.getD idx default])
        ([s.deck.getD idx default] ++ s.discard) := List.perm_append_comm
    have h2 := h1.append_left (s.deck.eraseIdx idx)
    have h3 := (perm_getD_cons_eraseIdx s.deck idx hlt).symm.append_right s.discard
    have h5 : List.Perm (s.deck.eraseIdx idx ++ ([s.deck.getD idx default] ++ s.discard))
        (([s.deck.getD idx default] ++ s.deck.eraseIdx idx) ++ s.discard) := by
      rw [← List.append_assoc]
      exact List.perm_append_comm.append_right s.discard
    exact h2.trans (h5.trans h3)

theorem shuffle_uniqueIds (f : Nat → Nat) (s : CardState) (h : uniqueIds s) :
    uniqueIds (shuffle f s).1 :=
  uniqueIds_of_perm h ((shuffleArray_perm f s.deck).append_right s.discard)

theorem draw_uniqueIds (n : Nat) (s : CardState) (h : uniqueIds s) :
    uniqueIds (draw n s).1 := by
  unfold draw
  by_cases h0 : s.deck.length = 0
  · rw [if_pos h0]; exact h
  · rw [if_neg h0]
    refine uniqueIds_of_perm h ?_
    show List.Perm ((drawLoop n s.deck).2 ++ (s.discard ++ (drawLoop n s.deck).1))
      (s.deck ++ s.discard)
    rw [drawLoop_eq]
    show List.Perm (s.deck.drop n ++ (s.discard ++ s.deck.take n)) (s.deck ++ s.discard)
    have step1 := List.perm_append_comm_assoc (s.deck.drop n) s.discard (s.deck.take n)
    have step2 : List.Perm (s.deck.drop n ++ s.deck.take n) s.deck := by
      have hcomm : List.Perm (s.deck.drop n ++ s.deck.take n)
          (s.deck.take n ++ s.deck.drop n) := List.perm_append_comm
      rwa [List.take_append_drop] at hcomm
    exact step1.trans ((step2.append_left s.discard).trans List.perm_append_comm)

/-- Deck written out following the spec's words for a refinement check of
`makeDeck`: suit-major rank-minor order, suits in the fixed order Clubs,
Diamonds, Hearts, Spades, each with ranks A,2..10,J,Q,K in that order, each
card's id being `"<rank>-<suit>"`. -/
def specOrderedDeck : List Card :=
  [⟨"A-Clubs", "A", "Clubs"⟩,
   ⟨"2-Clubs", "2", "Clubs"⟩,
   ⟨"3-Clubs", "3", "Clubs"⟩,
   ⟨"4-Clubs", "4", "Clubs"⟩,
   ⟨"5-Clubs", "5", "Clubs"⟩,
   ⟨"6-Clubs", "6", "Clubs"⟩,
   ⟨"7-Clubs", "7", "Clubs"⟩,
   ⟨"8-Clubs", "8", "Clubs"⟩,
   ⟨"9-Clubs", "9", "Clubs"⟩,
   ⟨"10-Clubs", "10", "Clubs"⟩,
   ⟨"J-Clubs", "J", "Clubs"⟩,
   ⟨"Q-Clubs", "Q", "Clubs"⟩,
   ⟨"K-Clubs", "K", "Clubs"⟩,
   ⟨"A-Diamonds", "A", "Diamonds"⟩,
   ⟨"2-Diamonds", "2", "Diamonds"⟩,
   ⟨"3-Diamonds", "3", "Diamonds"⟩,
   ⟨"4-Diamonds", "4", "Diamonds"⟩,
   ⟨"5-Diamonds", "5", "Diamonds"⟩,
   ⟨"6-Diamonds", "6", "Diamonds"⟩,
   ⟨"7-Diamonds", "7", "Diamonds"⟩,
   ⟨"8-Diamonds", "8", "Diamonds"⟩,
   ⟨"9-Diamonds", "9", "Diamonds"⟩,
   ⟨"10-Diamonds", "10", "Diamonds"⟩,
   ⟨"J-Diamonds", "J", "Diamonds"⟩,
   ⟨"Q-Diamonds", "Q", "Diamonds"⟩,
   ⟨"K-Diamonds", "K", "Diamonds"⟩,
   ⟨"A-Hearts", "A", "Hearts"⟩,
   ⟨"2-Hearts", "2", "Hearts"⟩,
   ⟨"3-Hearts", "3", "Hearts"⟩,
   ⟨"4-Hearts", "4", "Hearts"⟩,
   ⟨"5-Hearts", "5", "Hearts"⟩,
   ⟨"6-Hearts", "6", "Hearts"⟩,
   ⟨"7-Hearts", "7", "Hearts"⟩,
   ⟨"8-Hearts", "8", "Hearts"⟩,
   ⟨"9-Hearts", "9", "Hearts"⟩,
   ⟨"10-Hearts", "10", "Hearts"⟩,
   ⟨"J-Hearts", "J", "Hearts"⟩,
   ⟨"Q-Hearts", "Q", "Hearts"⟩,
   ⟨"K-Hearts", "K", "Hearts"⟩,
   ⟨"A-Spades", "A", "Spades"⟩,
   ⟨"2-Spades", "2", "Spades"⟩,
   ⟨"3-Spades", "3", "Spades"⟩,
   ⟨"4-Spades", "4", "Spades"⟩,
   ⟨"5-Spades", "5", "Spades"⟩,
   ⟨"6-Spades", "6", "Spades"⟩,
   ⟨"7-Spades", "7", "Spades"⟩,
   ⟨"8-Spades", "8", "Spades"⟩,
   ⟨"9-Spades", "9", "Spades"⟩,
   ⟨"10-Spades", "10", "Spades"⟩,
   ⟨"J-Spades", "J", "Spades"⟩,
   ⟨"Q-Spades", "Q", "Spades"⟩,
   ⟨"K-Spades", "K", "Spades"⟩]

theorem reset_uniqueIds (s : CardState) : uniqueIds (reset s) := by
  show uniqueIds { deck := makeDeck, discard := [] }
  decide

end CardStore

namespace BookStore

theorem findBookIndexById_eq_some (i : Int) (l : List Book) (n : Nat)
    (h : findBookIndexById i l = some n) :
    n < l.length ∧ ((l.getD n default).id : Int) = i := by
  induction l generalizing n with
  | nil => simp [findBookIndexById] at h
  | cons b bs ih =>
    by_cases hb : (b.id : Int) = i
    · simp [findBookIndexById, hb] at h
      subst h
      simpa using hb
    · rw [findBookIndexById, if_neg (by simp [hb]), Option.map_eq_some'] at h
      obtain ⟨m, hm, hmn⟩ := h
      subst hmn
      obtain ⟨h1, h2⟩ := ih m hm
      constructor
      · simpa using Nat.succ_lt_succ h1
      · simpa using h2

theorem applyBookFields_id (inp : UpdInput) (b : Book) :
    (applyBookFields inp b).id = b.id := by
  unfold applyBookFields
  split <;> split <;> split <;> split <;> rfl

theorem getD_mem_book {l : List Book} {n : Nat} (h : n < l.length) :
    l.getD n default ∈ l := by
  induction l generalizing n with
  | nil => simp at h
  | cons b bs ih =>
    cases n with
    | zero => simp
    | succ m =>
      simp only [List.length_cons, Nat.succ_lt_succ_iff] at h
      exact List.mem_cons_of_mem _ (ih h)

theorem le_foldr_max (l : List Nat) (x : Nat) (hx : x ∈ l) :
    x ≤ l.foldr max 0 := by
  induction l with
  | nil => simp at hx
  | cons y ys ih =>
    rcases List.mem_cons.mp hx with h | h
    · subst h
      exact Nat.le_max_left _ _
    · exact Nat.le_trans (ih h) (Nat.le_max_right _ _)

/-- The seeded counter strictly dominates every sample id, so the start state
satisfies the counter invariant. -/
theorem seedNextId_inv (bs : List Book) :
    booksInv { books := bs, nextId := seedNextId bs } := by
  intro b hb
  show b.id < seedNextId bs
  unfold seedNextId
  have hne : bs.length ≠ 0 := by
    intro h0
    rw [List.length_eq_zero] at h0
    subst h0
    simp at hb
  rw [if_pos hne]
  have : b.id ≤ (bs.map Book.id).foldr max 0 :=
    le_foldr_max _ _ (List.mem_map_of_mem Book.id hb)
  omega

theorem cmdAdd_cases (inp : AddInput) (s : BookState) :
    (jsTrim inp.titleRaw = "" ∧ cmdAdd inp s = (s, none)) ∨
    (∃ book, cmdAdd inp s = ({ books := s.books ++ [book], nextId := s.nextId + 1 }, some book) ∧
      book.id = s.nextId) := by
  by_cases h : jsTrim inp.titleRaw = ""
  · left
    refine ⟨h, ?_⟩
    unfold cmdAdd
    rw [if_pos h]
  · right
    unfold cmdAdd
    rw [if_neg h]
    exact ⟨_, rfl, rfl⟩

theorem cmdUpdate_cases (inp : UpdInput) (s : BookState) :
    cmdUpdate inp s = s ∨
    ∃ idx, idx < s.books.length ∧
      cmdUpdate inp s =
        { s with books := s.books.set idx (applyBookFields inp (s.books.getD idx default)) } := by
  unfold cmdUpdate
  cases hj : jsNum inp.argRaw with
  | none => exact Or.inl rfl
  | some i =>
    by_cases hi : i = 0
    · exact Or.inl (by simp [hi])
    · cases hf : findBookIndexById i s.books with
      | none => exact Or.inl (by simp [hi, hf])
      | some idx =>
        exact Or.inr ⟨idx, (findBookIndexById_eq_some i s.books idx hf).1, by simp [hi, hf]⟩

theorem cmdRemove_cases (argRaw : String) (s : BookState) :
    cmdRemove argRaw s = s ∨
    ∃ idx, cmdRemove argRaw s = { s with books := s.books.eraseIdx idx } := by
  unfold cmdRemove
  cases hj : jsNum argRaw with
  | none => exact Or.inl rfl
  | some i =>
    by_cases hi : i = 0
    · exact Or.inl (by simp [hi])
    · cases hf : findBookIndexById i s.books with
      | none => exact Or.inl (by simp [hi, hf])
      | some idx => exact Or.inr ⟨idx, by simp [hi, hf]⟩

theorem cmdClear_cases (answerRaw : String) (s : BookState) :
    cmdClear answerRaw s = s ∨
    cmdClear answerRaw s = { s with books := [] } := by
  unfold cmdClear
  by_cases h : jsToLower (jsTrim answerRaw) = "yes"
  · exact Or.inr (by simp [h])
  · exact Or.inl (by simp [h])

/-- Per-command facts feeding the never-reused-id argument: the invariant is
preserved, the counter never decreases, a created book takes exactly the
pre-state counter value (and bumps it by one), and every post-state id was
either already stored or was just created. -/
theorem applyCmd_facts (c : Cmd) (s : BookState) (hinv : booksInv s) :
    booksInv (applyCmd c s).1 ∧
    s.nextId ≤ (applyCmd c s).1.nextId ∧
    (∀ b, (applyCmd c s).2 = some b →
      b.id = s.nextId ∧ (applyCmd c s).1.nextId = s.nextId + 1) ∧
    (∀ b ∈ (applyCmd c s).1.books, b.id ∈ s.books.map Book.id ∨
      ∃ b2, (applyCmd c s).2 = some b2 ∧ b.id = b2.id) := by
  cases c with
  | add inp =>
    simp only [applyCmd]
    rcases cmdAdd_cases inp s with ⟨_, heq⟩ | ⟨book, heq, hid⟩ <;> rw [heq]
    · refine ⟨hinv, Nat.le_refl _, ?_, ?_⟩
      · intro b hb
        exact Option.noConfusion hb
      · intro b hb
        exact Or.inl (List.mem_map_of_mem _ hb)
    · refine ⟨?_, Nat.le_succ _, ?_, ?_⟩
      · intro b hb
        rcases List.mem_append.mp hb with hb | hb
        · exact Nat.lt_succ_of_lt (hinv b hb)
        · rw [List.mem_singleton] at hb
          subst hb
          exact lt_of_eq_of_lt hid (Nat.lt_succ_self _)
      · intro b hb
        have hb2 : book = b := Option.some.inj hb
        subst hb2
        exact ⟨hid, rfl⟩
      · intro b hb
        rcases List.mem_append.mp hb with hb | hb
        · exact Or.inl (List.mem_map_of_mem _ hb)
        · rw [List.mem_singleton] at hb
          exact Or.inr ⟨book, rfl, by rw [hb]⟩
  | update inp =>
    simp only [applyCmd]
    rcases cmdUpdate_cases inp s with heq | ⟨idx, hlt, heq⟩ <;> rw [heq]
    · refine ⟨hinv, Nat.le_refl _, ?_, ?_⟩
      · intro b hb
        exact Option.noConfusion hb
      · intro b hb
        exact Or.inl (List.mem_map_of_mem _ hb)
    · refine ⟨?_, Nat.le_refl _, ?_, ?_⟩
      · intro b hb
        rcases List.mem_or_eq_of_mem_set hb with h1 | h1
        · exact hinv b h1
        · subst h1
          exact lt_of_eq_of_lt (applyBookFields_id inp _) (hinv _ (getD_mem_book hlt))
      · intro b hb
        exact Option.noConfusion hb
      · intro b hb
        rcases List.mem_or_eq_of_mem_set hb with h1 | h1
        · exact Or.inl (List.mem_map_of_mem _ h1)
        · subst h1
          left
          rw [applyBookFields_id]
          exact List.mem_map_of_mem _ (getD_mem_book hlt)
  | remove a =>
    simp only [applyCmd]
    rcases cmdRemove_cases a s with heq | ⟨idx, heq⟩ <;> rw [heq]
    · refine ⟨hinv, Nat.le_refl _, ?_, ?_⟩
      · intro b hb
        exact Option.noConfusion hb
      · intro b hb
        exact Or.inl (List.mem_map_of_mem _ hb)
    · refine ⟨?_, Nat.le_refl _, ?_, ?_⟩
      · intro b hb
        exact hinv b (List.mem_of_mem_eraseIdx hb)
      · intro b hb
        exact Option.noConfusion hb
      · intro b hb
        exact Or.inl (List.mem_map_of_mem _ (List.mem_of_mem_eraseIdx hb))
  | clear a =>
    simp only [applyCmd]
    rcases cmdClear_cases a s with heq | heq <;> rw [heq]
    · refine ⟨hinv, Nat.le_refl _, ?_, ?_⟩
      · intro b hb
        exact Option.noConfusion hb
      · intro b hb
        exact Or.inl (List.mem_map_of_mem _ hb)
    · refine ⟨?_, Nat.le_refl _, ?_, ?_⟩
      · intro b hb
        exact absurd hb (List.not_mem_nil b)
      · intro b hb
        exact Option.noConfusion hb
      · intro b hb
        exact absurd hb (List.not_mem_nil b)

/-- Trace-level facts: running any command sequence keeps the invariant,
never lowers the counter, assigns strictly increasing fresh ids all at least
the starting counter, and only ever stores ids that were present initially or
assigned by some `add` of the trace. -/
theorem runTrace_facts (cs : List Cmd) : ∀ s : BookState, booksInv s →
    booksInv (runTrace cs s) ∧
    s.nextId ≤ (runTrace cs s).nextId ∧
    (∀ k ∈ assignedIds cs s, s.nextId ≤ k) ∧
    List.Pairwise (fun a b => a < b) (assignedIds cs s) ∧
    (∀ b ∈ (runTrace cs s).books,
      b.id ∈ s.books.map Book.id ∨ b.id ∈ assignedIds cs s) := by
  induction cs with
  | nil =>
    intro s h
    refine ⟨h, Nat.le_refl _, ?_, ?_, ?_⟩
    · intro k hk
      simp [assignedIds] at hk
    · simp [assignedIds]
    · intro b hb
      exact Or.inl (List.mem_map_of_mem _ hb)
  | cons c cs ih =>
    intro s hinv
    obtain ⟨h1, h2, h3, h4⟩ := applyCmd_facts c s hinv
    obtain ⟨I1, I2, I3, I4, I5⟩ := ih (applyCmd c s).1 h1
    have hrun : runTrace (c :: cs) s = runTrace cs (applyCmd c s).1 := rfl
    refine ⟨by rw [hrun]; exact I1, by rw [hrun]; exact Nat.le_trans h2 I2, ?_, ?_, ?_⟩
    · intro k hk
      cases hc : (applyCmd c s).2 with
      | none =>
        rw [assignedIds, hc] at hk
        simp only [List.nil_append] at hk
        exact Nat.le_trans h2 (I3 k hk)
      | some b0 =>
        rw [assignedIds, hc] at hk
        simp only [List.singleton_append, List.mem_cons] at hk
        rcases hk with hk | hk
        · subst hk
          exact Nat.le_of_eq (h3 b0 hc).1.symm
        · have := I3 k hk
          have := (h3 b0 hc).2
          omega
    · cases hc : (applyCmd c s).2 with
      | none =>
        rw [assignedIds, hc]
        simpa using I4
      | some b0 =>
        rw [assignedIds, hc]
        simp only [List.singleton_append]
        refine List.Pairwise.cons ?_ I4
        intro k hk
        have hk2 := I3 k hk
        have hb0 := h3 b0 hc
        omega
    · intro b hb
      rw [hrun] at hb
      rcases I5 b hb with h5 | h5
      · rcases List.mem_map.mp h5 with ⟨b1, hb1, hid1⟩
        rcases h4 b1 hb1 with h6 | ⟨b2, hb2, hid2⟩
        · left
          rw [← hid1]
          exact h6
        · right
          rw [assignedIds, hb2]
          simp [← hid1, hid2]
      · right
        cases hc : (applyCmd c s).2 with
        | none =>
          rw [assignedIds, hc]
          simpa using h5
        | some b0 =>
          rw [assignedIds, hc]
          simp only [List.singleton_append, List.mem_cons]
          exact Or.inr h5

end BookStore

namespace CardStore

/-- C1: every Card Store operation (addCard, updateCard, removeCard, shuffle,
draw, peek, reset) preserves the invariant that card ids are pairwise unique
across the active and discarded sequences: from any state with all-distinct
ids, the post-state of any operation also has all-distinct ids. -/
theorem claim1_ops_preserve_unique_ids (s : CardState) (h : uniqueIds s) :
    (∀ b, uniqueIds (addCard b s).1) ∧
    (∀ i b, uniqueIds (updateCard i b s).1) ∧
    (∀ i, uniqueIds (removeCard i s).1) ∧
    (∀ f, uniqueIds (shuffle f s).1) ∧
    (∀ n, uniqueIds (draw n s).1) ∧
    (∀ n, uniqueIds (peek n s).1) ∧
    uniqueIds (reset s) :=
  ⟨fun b => addCard_uniqueIds b s h,
   fun i b => updateCard_uniqueIds i b s h,
   fun i => removeCard_uniqueIds i s h,
   fun f => shuffle_uniqueIds f s h,
   fun n => draw_uniqueIds n s h,
   fun _ => h,
   reset_uniqueIds s⟩

/-- Witness for C1: a concrete two-card state with distinct ids, and the
invariant instantiated at a concrete draw. -/
theorem claim1_witness :
    uniqueIds ⟨[⟨"A-Clubs", "A", "Clubs"⟩], [⟨"2-Clubs", "2", "Clubs"⟩]⟩ ∧
    uniqueIds (draw 1 ⟨[⟨"A-Clubs", "A", "Clubs"⟩], [⟨"2-Clubs", "2", "Clubs"⟩]⟩).1 :=
  ⟨by decide,
   (claim1_ops_preserve_unique_ids ⟨[⟨"A-Clubs", "A", "Clubs"⟩],
     [⟨"2-Clubs", "2", "Clubs"⟩]⟩ (by decide)).2.2.2.2.1 1⟩

/-- C2: after reset, regardless of the prior state, the active sequence is
exactly the 52-card deck in suit-major rank-minor order (Clubs, Diamonds,
Hearts, Spades × A,2..10,J,Q,K, ids `"<rank>-<suit>"`) with pairwise-distinct
ids, and the discarded sequence is empty. -/
theorem claim2_reset_spec (s : CardState) :
    reset s = { deck := specOrderedDeck, discard := [] } ∧
    (reset s).deck.length = 52 ∧
    ((reset s).deck.map Card.id).Nodup ∧
    (reset s).discard = [] := by
  refine ⟨?_, ?_, ?_, rfl⟩
  · show ({ deck := makeDeck, discard := [] } : CardState) =
      { deck := specOrderedDeck, discard := [] }
    decide
  · show makeDeck.length = 52
    decide
  · show (makeDeck.map Card.id).Nodup
    decide

/-- C3: for every n ≥ 1, draw fails with the HTTP 400 "Deck is empty" error
iff the active sequence is empty; otherwise it moves the first
min(n, length) cards from the front of the active sequence to the end of the
discarded sequence in their original order, returns them with the new
remaining count, and conserves the total number of cards. -/
theorem claim3_draw_spec (n : Nat) (hn : 1 ≤ n) (s : CardState) :
    ((draw n s).2 = .error ⟨400, "Deck is empty"⟩ ↔ s.deck = []) ∧
    (s.deck ≠ [] →
      (draw n s).2 = .ok ⟨s.deck.take n, (s.deck.drop n).length⟩ ∧
      (s.deck.take n).length = min n s.deck.length ∧
      (draw n s).1.deck = s.deck.drop n ∧
      (draw n s).1.discard = s.discard ++ s.deck.take n ∧
      (draw n s).1.deck.length + (draw n s).1.discard.length =
        s.deck.length + s.discard.length) := by
  have _ := hn
  unfold draw
  by_cases h0 : s.deck.length = 0
  · rw [if_pos h0]
    have he : s.deck = [] := List.length_eq_zero.mp h0
    exact ⟨⟨fun _ => he, fun _ => rfl⟩, fun hne => absurd he hne⟩
  · rw [if_neg h0]
    have hne : s.deck ≠ [] := fun he => h0 (by rw [he]; rfl)
    refine ⟨⟨fun hcontra => ?_, fun he => absurd he hne⟩, fun _ => ?_⟩
    · simp [drawLoop_eq] at hcontra
    · refine ⟨?_, List.length_take n s.deck, ?_, ?_, ?_⟩
      · show (Except.ok ⟨(drawLoop n s.deck).1, (drawLoop n s.deck).2.length⟩ :
            Except ApiError DrawResult) =
          Except.ok ⟨s.deck.take n, (s.deck.drop n).length⟩
        rw [drawLoop_eq]
      · show (drawLoop n s.deck).2 = s.deck.drop n
        rw [drawLoop_eq]
      · show s.discard ++ (drawLoop n s.deck).1 = s.discard ++ s.deck.take n
        rw [drawLoop_eq]
      · show (drawLoop n s.deck).2.length + (s.discard ++ (drawLoop n s.deck).1).length =
          s.deck.length + s.discard.length
        rw [drawLoop_eq]
        show (s.deck.drop n).length + (s.discard ++ s.deck.take n).length =
          s.deck.length + s.discard.length
        rw [List.length_append, List.length_take, List.length_drop]
        omega

/-- Witness for C3: drawing 3 from a fresh deck succeeds with the first three
clubs and 49 remaining. -/
theorem claim3_witness :
    1 ≤ 3 ∧
    (draw 3 ⟨makeDeck, []⟩).2 =
      .ok ⟨[⟨"A-Clubs", "A", "Clubs"⟩, ⟨"2-Clubs", "2", "Clubs"⟩, ⟨"3-Clubs", "3", "Clubs"⟩], 49⟩ := by
  refine ⟨by decide, ?_⟩
  have h := (claim3_draw_spec 3 (by decide) ⟨makeDeck, []⟩).2 (by decide)
  rw [h.1]
  exact congrArg Except.ok (by decide)

/-- C6: for every state and every sequence of random index draws fed to the
Fisher-Yates loop, shuffle leaves the active sequence a permutation of the
original (same cards, same count) and the discarded sequence unchanged. -/
theorem claim6_shuffle_perm (f : Nat → Nat) (s : CardState) :
    List.Perm (shuffle f s).1.deck s.deck ∧ (shuffle f s).1.discard = s.discard :=
  ⟨shuffleArray_perm f s.deck, rfl⟩

end CardStore

namespace CardStore

theorem applyRankSuit_eq (b : UpdateBody) (c : Card) :
    applyRankSuit b c =
      { id := c.id,
        rank := if strTruthy b.rank then b.rank.getD "" else c.rank,
        suit := if strTruthy b.suit then b.suit.getD "" else c.suit } := by
  unfold applyRankSuit
  by_cases h1 : strTruthy b.rank = true <;> by_cases h2 : strTruthy b.suit = true <;>
    simp [h1, h2]

theorem getD_set_self {l : List Card} {n : Nat} {a : Card} (h : n < l.length) :
    (l.set n a).getD n default = a := by
  simp [List.getD_eq_getElem?_getD, List.getElem?_set_self h]

theorem hasId_set_applyRankSuit (b : UpdateBody) (s : CardState) (idx : Nat)
    (hlt : idx < s.deck.length) (v : String) :
    hasId (s.deck.set idx (applyRankSuit b (s.deck.getD idx default))) v =
      hasId s.deck v := by
  have hids : (s.deck.set idx (applyRankSuit b (s.deck.getD idx default))).map Card.id
      = s.deck.map Card.id :=
    map_id_set_eq hlt (applyRankSuit_id b _)
  rw [Bool.eq_iff_iff]
  constructor
  · intro hv
    exact (hasId_iff _ _).mpr (by rw [← hids]; exact (hasId_iff _ _).mp hv)
  · intro hv
    exact (hasId_iff _ _).mpr (by rw [hids]; exact (hasId_iff _ _).mp hv)

/-- C4: addCard fails with InvalidInput (HTTP 400) when rank or suit is
missing (JS-falsy); otherwise, with the id defaulting to `"<rank>-<suit>"`,
it fails with Conflict (HTTP 409) exactly when that id is already present
in the active or discarded sequence, and otherwise appends the new card
`{id, rank, suit}` to the end of the active sequence, returns it, and leaves
all other cards in both sequences unchanged. -/
theorem claim4_addCard_spec (b : AddBody) (s : CardState) :
    ((strTruthy b.rank = false ∨ strTruthy b.suit = false) →
      addCard b s = (s, .error ⟨400, "rank and suit are required"⟩)) ∧
    (strTruthy b.rank = true → strTruthy b.suit = true →
      (defaultedId b ∈ (s.deck ++ s.discard).map Card.id →
        addCard b s = (s, .error ⟨409, "A card with that id already exists"⟩)) ∧
      (defaultedId b ∉ (s.deck ++ s.discard).map Card.id →
        addCard b s =
          ({ deck := s.deck ++ [⟨defaultedId b, b.rank.getD "", b.suit.getD ""⟩],
             discard := s.discard },
           .ok ⟨defaultedId b, b.rank.getD "", b.suit.getD ""⟩))) := by
  constructor
  · intro hmiss
    unfold addCard
    rw [if_pos (by rcases hmiss with h | h <;> simp [h])]
  · intro hr hs1
    have hguard : ¬((!strTruthy b.rank || !strTruthy b.suit) = true) := by simp [hr, hs1]
    constructor
    · intro hmem
      rw [List.map_append, List.mem_append] at hmem
      have hid2 : (hasId s.deck (defaultedId b) || hasId s.discard (defaultedId b)) = true := by
        rw [Bool.or_eq_true]
        rcases hmem with hmem | hmem
        · exact Or.inl ((hasId_iff _ _).mpr hmem)
        · exact Or.inr ((hasId_iff _ _).mpr hmem)
      unfold addCard
      rw [if_neg hguard, if_pos hid2]
    · intro hmem
      rw [List.map_append, List.mem_append, not_or] at hmem
      have hid2 : ¬((hasId s.deck (defaultedId b) || hasId s.discard (defaultedId b)) = true) := by
        rw [Bool.or_eq_true, not_or]
        exact ⟨fun hc => hmem.1 ((hasId_iff _ _).mp hc),
               fun hc => hmem.2 ((hasId_iff _ _).mp hc)⟩
      unfold addCard
      rw [if_neg hguard, if_neg hid2]

/-- Witness for C4: adding a joker with an explicit id to a one-card state
appends it at the end of the active sequence. -/
theorem claim4_witness :
    strTruthy (some "Joker") = true ∧
    addCard ⟨some "Joker", some "Black", some "joker-black"⟩
        ⟨[⟨"A-Clubs", "A", "Clubs"⟩], []⟩ =
      ({ deck := [⟨"A-Clubs", "A", "Clubs"⟩, ⟨"joker-black", "Joker", "Black"⟩],
         discard := [] },
       .ok ⟨"joker-black", "Joker", "Black"⟩) := by
  refine ⟨by decide, ?_⟩
  have h := ((claim4_addCard_spec ⟨some "Joker", some "Black", some "joker-black"⟩
    ⟨[⟨"A-Clubs", "A", "Clubs"⟩], []⟩).2 (by decide) (by decide)).2 (by decide)
  rw [h]
  rfl

end CardStore

namespace CardStore

/-- C5: updateCard fails with NotFound (HTTP 404) iff no card with the id is
in the active sequence (discarded cards cannot be updated); field writes
overwrite exactly the provided fields; when the card is found, a provided
newId fails with Conflict (HTTP 409) exactly when it collides with an
existing id in either sequence, and otherwise the card is renamed in place
(same position in the active sequence) and returned. -/
theorem claim5_updateCard_spec (i : String) (b : UpdateBody) (s : CardState) :
    ((updateCard i b s).2 = .error ⟨404, "Card not in deck"⟩ ↔ ∀ c ∈ s.deck, c.id ≠ i) ∧
    (∀ c, applyRankSuit b c =
      { id := c.id,
        rank := if strTruthy b.rank then b.rank.getD "" else c.rank,
        suit := if strTruthy b.suit then b.suit.getD "" else c.suit }) ∧
    (∀ idx, findCardIndexById i s.deck = some idx →
      (s.deck.getD idx default).id = i ∧
      (strTruthy b.newId = true →
        (b.newId.getD "" ∈ (s.deck ++ s.discard).map Card.id →
          (updateCard i b s).2 = .error ⟨409, "newId already exists"⟩) ∧
        (b.newId.getD "" ∉ (s.deck ++ s.discard).map Card.id →
          updateCard i b s =
            ({ deck := s.deck.set idx
                 { applyRankSuit b (s.deck.getD idx default) with id := b.newId.getD "" },
               discard := s.discard },
             .ok { applyRankSuit b (s.deck.getD idx default) with id := b.newId.getD "" }))) ∧
      (strTruthy b.newId = false →
        updateCard i b s =
          ({ deck := s.deck.set idx (applyRankSuit b (s.deck.getD idx default)),
             discard := s.discard },
           .ok (applyRankSuit b (s.deck.getD idx default))))) := by
  refine ⟨⟨?_, ?_⟩, applyRankSuit_eq b, ?_⟩
  · intro h404
    cases hf : findCardIndexById i s.deck with
    | none => exact (findCardIndexById_eq_none i s.deck).mp hf
    | some idx =>
      exfalso
      rcases updateCard_found i b s idx hf with ⟨_, _, heq⟩ | ⟨_, _, heq⟩ | ⟨_, heq⟩ <;>
        rw [heq] at h404 <;> simp at h404
  · intro hall
    rw [updateCard_notfound i b s ((findCardIndexById_eq_none i s.deck).mpr hall)]
  · intro idx hf
    obtain ⟨hlt, hid⟩ := findCardIndexById_eq_some i s.deck idx hf
    refine ⟨hid, ?_, ?_⟩
    · intro hn
      constructor
      · intro hmem
        rcases updateCard_found i b s idx hf with ⟨_, _, heq⟩ | ⟨_, hc, heq⟩ | ⟨hfalse, _⟩
        · rw [heq]
        · exfalso
          have hguard : (hasId (s.deck.set idx (applyRankSuit b (s.deck.getD idx default)))
              (b.newId.getD "") || hasId s.discard (b.newId.getD "")) = true := by
            rw [Bool.or_eq_true, hasId_set_applyRankSuit b s idx hlt]
            rw [List.map_append, List.mem_append] at hmem
            rcases hmem with hm | hm
            · exact Or.inl ((hasId_iff _ _).mpr hm)
            · exact Or.inr ((hasId_iff _ _).mpr hm)
          rw [hc] at hguard
          exact Bool.noConfusion hguard
        · rw [hfalse] at hn
          exact Bool.noConfusion hn
      · intro hmem
        rcases updateCard_found i b s idx hf with ⟨_, hc, heq⟩ | ⟨_, _, heq⟩ | ⟨hfalse, _⟩
        · exfalso
          rw [Bool.or_eq_true, hasId_set_applyRankSuit b s idx hlt] at hc
          rw [List.map_append, List.mem_append, not_or] at hmem
          rcases hc with hc | hc
          · exact hmem.1 ((hasId_iff _ _).mp hc)
          · exact hmem.2 ((hasId_iff _ _).mp hc)
        · rw [heq, List.set_set]
        · rw [hfalse] at hn
          exact Bool.noConfusion hn
    · intro hn
      rcases updateCard_found i b s idx hf with ⟨htrue, _, _⟩ | ⟨htrue, _, _⟩ | ⟨_, heq⟩
      · rw [hn] at htrue
        exact Bool.noConfusion htrue
      · rw [hn] at htrue
        exact Bool.noConfusion htrue
      · rw [heq]

/-- Witness for C5: renaming the first of two cards to a fresh id succeeds in
place. -/
theorem claim5_witness :
    findCardIndexById "A-Clubs"
      [⟨"A-Clubs", "A", "Clubs"⟩, ⟨"2-Clubs", "2", "Clubs"⟩] = some 0 ∧
    updateCard "A-Clubs" ⟨some "9", none, some "9-Clubs"⟩
        ⟨[⟨"A-Clubs", "A", "Clubs"⟩, ⟨"2-Clubs", "2", "Clubs"⟩], []⟩ =
      ({ deck := [⟨"9-Clubs", "9", "Clubs"⟩, ⟨"2-Clubs", "2", "Clubs"⟩],
         discard := [] },
       .ok ⟨"9-Clubs", "9", "Clubs"⟩) := by
  refine ⟨by decide, ?_⟩
  have h := ((((claim5_updateCard_spec "A-Clubs" ⟨some "9", none, some "9-Clubs"⟩
    ⟨[⟨"A-Clubs", "A", "Clubs"⟩, ⟨"2-Clubs", "2", "Clubs"⟩], []⟩).2.2 0
      (by decide)).2.1 (by decide)).2 (by decide))
  rw [h]
  rfl

/-- C10: an updateCard request carrying rank and/or suit together with a
colliding newId fails with Conflict (HTTP 409), yet the supplied rank and
suit have already been written to the stored card before the conflict check —
the store is not left unchanged on this error path (a failed update is not
atomic). -/
theorem claim10_update_conflict_not_atomic (i : String) (b : UpdateBody) (s : CardState)
    (idx : Nat) (hf : findCardIndexById i s.deck = some idx)
    (hn : strTruthy b.newId = true)
    (hmem : b.newId.getD "" ∈ (s.deck ++ s.discard).map Card.id) :
    (updateCard i b s).2 = .error ⟨409, "newId already exists"⟩ ∧
    (updateCard i b s).1.deck =
      s.deck.set idx (applyRankSuit b (s.deck.getD idx default)) ∧
    (strTruthy b.rank = true →
      ((updateCard i b s).1.deck.getD idx default).rank = b.rank.getD "") ∧
    (strTruthy b.suit = true →
      ((updateCard i b s).1.deck.getD idx default).suit = b.suit.getD "") ∧
    (strTruthy b.rank = true → b.rank.getD "" ≠ (s.deck.getD idx default).rank →
      (updateCard i b s).1 ≠ s) := by
  obtain ⟨hlt, _⟩ := findCardIndexById_eq_some i s.deck idx hf
  have hguard : (hasId (s.deck.set idx (applyRankSuit b (s.deck.getD idx default)))
      (b.newId.getD "") || hasId s.discard (b.newId.getD "")) = true := by
    rw [Bool.or_eq_true, hasId_set_applyRankSuit b s idx hlt]
    rw [List.map_append, List.mem_append] at hmem
    rcases hmem with hm | hm
    · exact Or.inl ((hasId_iff _ _).mpr hm)
    · exact Or.inr ((hasId_iff _ _).mpr hm)
  have heq : updateCard i b s =
      ({ deck := s.deck.set idx (applyRankSuit b (s.deck.getD idx default)),
         discard := s.discard }, .error ⟨409, "newId already exists"⟩) := by
    rcases updateCard_found i b s idx hf with ⟨_, _, h⟩ | ⟨_, hc, _⟩ | ⟨hfalse, _⟩
    · exact h
    · rw [hc] at hguard
      exact Bool.noConfusion hguard
    · rw [hfalse] at hn
      exact Bool.noConfusion hn
  have hcard : (updateCard i b s).1.deck.getD idx default =
      applyRankSuit b (s.deck.getD idx default) := by
    rw [heq]
    exact getD_set_self hlt
  refine ⟨by rw [heq], by rw [heq], ?_, ?_, ?_⟩
  · intro hr
    rw [hcard, applyRankSuit_eq]
    simp [hr]
  · intro hs1
    rw [hcard, applyRankSuit_eq]
    simp [hs1]
  · intro hr hner hcontra
    have hgd : (updateCard i b s).1.deck.getD idx default = s.deck.getD idx default := by
      rw [hcontra]
    rw [hcard] at hgd
    have hrank := congrArg Card.rank hgd
    rw [applyRankSuit_eq] at hrank
    simp only [hr, if_true] at hrank
    exact hner hrank

/-- Witness for C10: renaming to an existing id while changing the rank
returns 409 yet leaves the rank of the stored card changed. -/
theorem claim10_witness :
    findCardIndexById "A-Clubs"
      [⟨"A-Clubs", "A", "Clubs"⟩, ⟨"2-Clubs", "2", "Clubs"⟩] = some 0 ∧
    (updateCard "A-Clubs" ⟨some "9", none, some "2-Clubs"⟩
      ⟨[⟨"A-Clubs", "A", "Clubs"⟩, ⟨"2-Clubs", "2", "Clubs"⟩], []⟩).2 =
        .error ⟨409, "newId already exists"⟩ ∧
    (updateCard "A-Clubs" ⟨some "9", none, some "2-Clubs"⟩
      ⟨[⟨"A-Clubs", "A", "Clubs"⟩, ⟨"2-Clubs", "2", "Clubs"⟩], []⟩).1 ≠
        ⟨[⟨"A-Clubs", "A", "Clubs"⟩, ⟨"2-Clubs", "2", "Clubs"⟩], []⟩ := by
  have h := claim10_update_conflict_not_atomic "A-Clubs" ⟨some "9", none, some "2-Clubs"⟩
    ⟨[⟨"A-Clubs", "A", "Clubs"⟩, ⟨"2-Clubs", "2", "Clubs"⟩], []⟩ 0
    (by decide) (by decide) (by decide)
  exact ⟨by decide, h.1, h.2.2.2.2 (by decide) (by decide)⟩

end CardStore

namespace BookStore

/-- C7: an add command whose title is empty after trimming aborts the whole
operation: the book list and the id counter are unchanged, and a subsequent
add with a non-empty title still receives the previously computed next id. -/
theorem claim7_add_empty_title_aborts (inp inp2 : AddInput) (s : BookState)
    (h : jsTrim inp.titleRaw = "") :
    cmdAdd inp s = (s, none) ∧
    (jsTrim inp2.titleRaw ≠ "" →
      ∃ b, (cmdAdd inp2 (cmdAdd inp s).1).2 = some b ∧ b.id = s.nextId) := by
  have habort : cmdAdd inp s = (s, none) := by
    unfold cmdAdd
    rw [if_pos h]
  refine ⟨habort, ?_⟩
  intro h2
  rcases cmdAdd_cases inp2 (cmdAdd inp s).1 with ⟨hempty, _⟩ | ⟨book, heq, hid⟩
  · exact absurd hempty h2
  · refine ⟨book, by rw [heq], ?_⟩
    rw [habort] at hid
    exact hid

/-- Witness for C7: a whitespace title aborts on the sample state and the
next add still gets id 3. -/
theorem claim7_witness :
    jsTrim "  " = "" ∧
    cmdAdd ⟨"  ", "A", "B", "C"⟩ initState = (initState, none) ∧
    ∃ b, (cmdAdd ⟨"Dune", "", "", ""⟩ (cmdAdd ⟨"  ", "A", "B", "C"⟩ initState).1).2 = some b ∧
      b.id = initState.nextId := by
  have h := claim7_add_empty_title_aborts ⟨"  ", "A", "B", "C"⟩ ⟨"Dune", "", "", ""⟩
    initState (by decide)
  exact ⟨by decide, h.1, h.2 (by decide)⟩

/-- C8 counterexample: with title "Dune", author "Frank Herbert", the
non-empty year input "0" and empty isbn, add creates the book WITHOUT a year
field (JS `if (year)` drops the falsy 0), refuting "the year field is present
exactly when the year input is non-empty". -/
theorem claim8_counterexample :
    jsTrim "0" ≠ "" ∧
    (cmdAdd ⟨"Dune", "Frank Herbert", "0", ""⟩ initState).2 =
      some { id := 3, title := "Dune", author := "Frank Herbert",
             year := none, isbn := none } :=
  ⟨by decide, by decide⟩

/-- C8 (amended): with a non-empty trimmed title, add appends exactly one
book whose id is the current next id (incrementing the counter), whose title
is the trimmed title, whose author is the trimmed author or "Unknown" when
empty; the year field is present and equal to the parsed year input exactly
when the year input is non-empty AND parses to a nonzero number (JS
truthiness: inputs parsing to 0 or NaN are omitted); the isbn field is
present, holding the trimmed input, exactly when the isbn input is
non-empty. -/
theorem claim8_cmdAdd_spec (inp : AddInput) (s : BookState)
    (h : jsTrim inp.titleRaw ≠ "") :
    ∃ b, cmdAdd inp s = ({ books := s.books ++ [b], nextId := s.nextId + 1 }, some b) ∧
      b.id = s.nextId ∧
      b.title = jsTrim inp.titleRaw ∧
      b.author = (if jsTrim inp.authorRaw = "" then "Unknown" else jsTrim inp.authorRaw) ∧
      (b.year ≠ none ↔
        (jsTrim inp.yearRaw ≠ "" ∧ numTruthy (jsNum (jsTrim inp.yearRaw)) = true)) ∧
      (∀ y, b.year = some y → jsNum (jsTrim inp.yearRaw) = some y) ∧
      (b.isbn ≠ none ↔ jsTrim inp.isbnRaw ≠ "") ∧
      (∀ x, b.isbn = some x → x = jsTrim inp.isbnRaw) := by
  unfold cmdAdd
  rw [if_neg h]
  refine ⟨_, rfl, rfl, rfl, rfl, ?_, ?_, ?_, ?_⟩
  · by_cases hy : jsTrim inp.yearRaw = ""
    · simp [hy, numTruthy]
    · by_cases ht : numTruthy (jsNum (jsTrim inp.yearRaw)) = true
      · cases hj : jsNum (jsTrim inp.yearRaw) with
        | none => rw [hj] at ht; exact absurd ht (by simp [numTruthy])
        | some y => simp [hy, ht, hj]
      · simp [hy, ht]
  · intro y hy2
    by_cases hy : jsTrim inp.yearRaw = ""
    · simp [hy] at hy2
    · by_cases ht : numTruthy (jsNum (jsTrim inp.yearRaw)) = true
      · simp only [hy, if_false, ht, if_true] at hy2
        exact hy2
      · simp [hy, ht] at hy2
  · by_cases hi : jsTrim inp.isbnRaw = "" <;> simp [hi]
  · intro x hx
    by_cases hi : jsTrim inp.isbnRaw = ""
    · simp [hi] at hx
    · simp only [hi, if_false, Option.some.injEq] at hx
      exact hx.symm

/-- Witness for C8 (amended): a fully-specified add on the sample state. -/
theorem claim8_witness :
    jsTrim "Dune" ≠ "" ∧
    ∃ b, cmdAdd ⟨"Dune", "", "1965", "XYZ"⟩ initState =
      ({ books := initState.books ++ [b], nextId := initState.nextId + 1 }, some b) ∧
      b.id = initState.nextId := by
  refine ⟨by decide, ?_⟩
  obtain ⟨b, heq, hid, _⟩ := claim8_cmdAdd_spec ⟨"Dune", "", "1965", "XYZ"⟩ initState (by decide)
  exact ⟨b, heq, hid⟩

/-- C9: book ids are never reused — the counter is seeded strictly above
every existing id, never decreases along any command trace, the ids assigned
by add commands are strictly increasing and strictly exceed every id present
at the start, and every id in the final store either was present initially
or was assigned by an add of the trace (so an id removed by remove/clear is
never handed out again). -/
theorem claim9_ids_never_reused (s : BookState) (hinv : booksInv s) (cs : List Cmd) :
    (∀ bs : List Book, booksInv { books := bs, nextId := seedNextId bs }) ∧
    booksInv (runTrace cs s) ∧
    s.nextId ≤ (runTrace cs s).nextId ∧
    List.Pairwise (fun a b => a < b) (assignedIds cs s) ∧
    (∀ k ∈ assignedIds cs s, ∀ b ∈ s.books, b.id < k) ∧
    (∀ b ∈ (runTrace cs s).books,
      b.id ∈ s.books.map Book.id ∨ b.id ∈ assignedIds cs s) := by
  obtain ⟨h1, h2, h3, h4, h5⟩ := runTrace_facts cs s hinv
  refine ⟨seedNextId_inv, h1, h2, h4, ?_, h5⟩
  intro k hk b hb
  exact Nat.lt_of_lt_of_le (hinv b hb) (h3 k hk)

/-- Witness for C9: a remove followed by two adds on the sample state assigns
strictly increasing fresh ids. -/
theorem claim9_witness :
    booksInv initState ∧
    List.Pairwise (fun a b => a < b)
      (assignedIds [Cmd.remove "2", Cmd.add ⟨"Dune", "", "", ""⟩,
        Cmd.add ⟨"Emma", "", "", ""⟩] initState) :=
  ⟨by decide, (claim9_ids_never_reused initState (by decide) _).2.2.2.1⟩

end BookStore
